import Mathlib

/-!
Shallow embedding of the Siglent SDG response-field extraction engine
(`qcodes_contrib_drivers/drivers/Siglent/_sdg_response_fields.py`, plus the
local `strip_unit` helper in `drivers/Siglent/sdg.py`).

Python strings are embedded as Lean `String` (a list of characters); the
Python primitives used by the source — slicing `s[n:]`, `s[:-n]`,
`str.split(",")`, `str.startswith`, `str.endswith`, `str.removesuffix` —
are embedded as structural functions on the character list, following
Python's documented semantics.  Extractor factories that can raise at
apply time (`StopIteration` escaping `next`, `ValueError` from tuple
unpacking) return `Except Unit`; the factories that cannot raise return
plain values.
-/

namespace Sdg

/-- Python `s[n:]` for a non-negative `n`: drop the first `n` characters
(the whole string becomes empty when `n` is at least the length). -/
def pyStringDrop (s : String) (n : Nat) : String :=
  String.mk (s.data.drop n)

/-- Python `s[:-n]`: with `n = 0` the slice is `s[:0] = ""`; with `n > 0`
it keeps everything up to the last `n` characters. -/
def pySliceDropLast (s : String) (n : Nat) : String :=
  if n = 0 then "" else String.mk (s.data.take (s.data.length - n))

/-- Worker for Python `str.split(",")`: `acc` holds the characters of the
current token in reverse; a comma finishes the current token, the end of
input finishes the final token.  `"".split(",")` is `[""]`. -/
def pySplitCommaAux : List Char → List Char → List String
  | acc, [] => [String.mk acc.reverse]
  | acc, c :: cs =>
    if c = ',' then String.mk acc.reverse :: pySplitCommaAux [] cs
    else pySplitCommaAux (c :: acc) cs

/-- Python `s.split(",")`: split on every comma; adjacent commas and ends
produce empty tokens; the result is never the empty list. -/
def pySplitComma (s : String) : List String :=
  pySplitCommaAux [] s.data

/-- Python `s.startswith(p)`. -/
def pyStartsWith (s p : String) : Bool :=
  p.data.isPrefixOf s.data

/-- Python `s.endswith(u)`: `u` is no longer than `s` and the last
`u.length` characters of `s` are exactly `u`. -/
def pyEndsWith (s u : String) : Bool :=
  decide (u.data.length ≤ s.data.length) &&
    (s.data.drop (s.data.length - u.data.length) == u.data)

/-- Python `s.removesuffix(u)` (PEP 616): if `u` is non-empty and `s` ends
with `u`, return `s[:len(s)-len(u)]`; otherwise return `s` unchanged. -/
def pyRemoveSuffix (s u : String) : String :=
  if !u.data.isEmpty && pyEndsWith s u then
    String.mk (s.data.take (s.data.length - u.data.length))
  else s

/-- Embedding of `identity` from `_sdg_response_fields.py`. -/
def identity (x : α) : α := x

/-- Embedding of `group_by_two` from `_sdg_response_fields.py`:
`zip(*2 * (iter(list_),))` pairs consecutive elements two at a time and
silently drops a dangling last element. -/
def group_by_two : List α → List (α × α)
  | a :: b :: rest => (a, b) :: group_by_two rest
  | _ => []

/-- Embedding of `find_first_by_key` from `_sdg_response_fields.py`: scan the (key,
value) pairs in order and return `transform_found value` for the first
pair whose key equals `search_key`; return `not_found` if none does. -/
def find_first_by_key (search_key : String) (items : List (String × String))
    (transform_found : String → α) (not_found : α) : α :=
  match items with
  | [] => not_found
  | (k, value) :: rest =>
    if k = search_key then transform_found value
    else find_first_by_key search_key rest transform_found not_found

/-- Embedding of `strip_unit` from `_sdg_response_fields.py`: build the transform
`s ↦ then(s.removesuffix(suffix))`. -/
def strip_unit (suffix : String) (then_ : String → α) : String → α :=
  fun s => then_ (pyRemoveSuffix s suffix)

/-- The local `strip_unit` defined inside `sdg.py`
(`_add_bswv_parameter_group`): if the value ends with `unit`, drop the
trailing `len(unit)` characters via the slice `value[:-len_unit]`; apply
`then` to the (possibly stripped) value. -/
def strip_unit_sdg (unit : String) (then_ : String → α) : String → α :=
  fun value =>
    if pyEndsWith value unit then then_ (pySliceDropLast value unit.data.length)
    else then_ value

/-- The tokenization step shared by every strategy:
`response[_result_prefix_len:].split(",")`. -/
def tokenize (resultPrefixLen : Nat) (response : String) : List String :=
  pySplitComma (pyStringDrop response resultPrefixLen)

/-- Embedding of `extract_standalone_first_field_or_regular_field` from
`_sdg_response_fields.py`.  With `name = None` the extractor returns
`then(first)` where `first = next(iter(tokens))` — the `next` call would
raise `StopIteration` (here `.error ()`) on an empty token sequence.
With a field name it discards the first token, pairs the rest with
`group_by_two` and performs first-match lookup with `else_default`. -/
def extract_standalone_first_field_or_regular_field (resultPrefixLen : Nat)
    (name : Option String) (then_ : String → α) (else_default : α)
    (response : String) : Except Unit α :=
  match name with
  | none =>
    match tokenize resultPrefixLen response with
    | [] => .error ()
    | first :: _ => .ok (then_ first)
  | some nm =>
    match tokenize resultPrefixLen response with
    | [] => .error ()
    | _ :: rest =>
      .ok (find_first_by_key nm (group_by_two rest) then_ else_default)

/-- The `for group in response_items: if group == param_group: break`
scan of `extract_first_state_field_or_any_group_prefixed_field`: consume
tokens one at a time until one equals `marker`; `none` models the
`for`-`else` fallthrough (marker never found), `some rest` the tokens
left in the iterator after `break`. -/
def scanToGroup (marker : String) : List String → Option (List String)
  | [] => none
  | t :: rest => if t = marker then some rest else scanToGroup marker rest

/-- The tail of `extract_first_state_field_or_any_group_prefixed_field`
after the state pair is rejected and `name.split(",")` has been unpacked:
the `for`/`else` scan for the group marker (`else_default` on
fallthrough) followed by the first-match lookup over the tokens the
iterator still holds. -/
def lookupAfterGroup (param_group param_name : String) (then_ : String → α)
    (else_default : α) (rest : List String) : Except Unit α :=
  match scanToGroup param_group rest with
  | none => .ok else_default
  | some tail =>
    .ok (find_first_by_key param_name (group_by_two tail) then_ else_default)

/-- Embedding of `extract_first_state_field_or_any_group_prefixed_field` from
`_sdg_response_fields.py`.  The two leading tokens are read inside
`try`/`except StopIteration` — fewer than two tokens yields
`else_default`.  If `name` equals the state key, `then(state_value)` is
returned.  Otherwise `param_group, param_name = name.split(",")` raises
`ValueError` (here `.error ()`) unless the split has exactly two parts;
then the remaining tokens are scanned for the group marker
(`else_default` when exhausted) and the tokens after the marker are
paired for first-match lookup (`lookupAfterGroup`). -/
def extract_first_state_field_or_any_group_prefixed_field
    (resultPrefixLen : Nat) (name : String) (then_ : String → α)
    (else_default : α) (response : String) : Except Unit α :=
  match tokenize resultPrefixLen response with
  | state_key :: state_value :: rest =>
    if name = state_key then .ok (then_ state_value)
    else
      match pySplitComma name with
      | [param_group, param_name] =>
        lookupAfterGroup param_group param_name then_ else_default rest
      | _ => .error ()
  | _ => .ok else_default

/-- Embedding of `extract_regular_field` from `_sdg_response_fields.py`: pair the
whole token sequence and perform first-match lookup. -/
def extract_regular_field (resultPrefixLen : Nat) (name : String)
    (then_ : String → α) (else_default : α) (response : String) : α :=
  find_first_by_key name
    (group_by_two (tokenize resultPrefixLen response)) then_ else_default

/-- Embedding of `extract_regular_field_before_group_or_group_prefixed_field` from
`_sdg_response_fields.py`.  When `name` does not start with
`_group + ","`: pair the tokens up to (excluding) the first occurrence of
the group marker (`takewhile`) and look `name` up there.  When `name`
does start with `_group + ","` the source sets
`items = (iter(response[...].split(",")),)` — a 1-tuple holding the
iterator, caused by the stray trailing comma — so `for item in items`
iterates over the tuple and compares the iterator object itself (never a
token) with `_group`; that comparison is always false, the loop falls
through to its `else` clause, and the function returns `else_default`
unconditionally. -/
def extract_regular_field_before_group_or_group_prefixed_field
    (grp : String) (resultPrefixLen : Nat) (name : String)
    (then_ : String → α) (else_default : α) (response : String) : α :=
  if !pyStartsWith name (grp ++ ",") then
    find_first_by_key name
      (group_by_two
        ((tokenize resultPrefixLen response).takeWhile (fun t => t != grp)))
      then_ else_default
  else
    else_default

/-- Spec-side helper describing a token sequence "of the form
`K1,V1,...,Kn,Vn`": the flattening of a list of (key, value) pairs. -/
def flattenPairs : List (α × α) → List α
  | [] => []
  | (a, b) :: ps => a :: b :: flattenPairs ps

end Sdg

namespace Sdg

/-!  Helper lemmas about the embedded primitives.  -/

theorem group_by_two_cons_cons (a b : α) (l : List α) :
    group_by_two (a :: b :: l) = (a, b) :: group_by_two l := rfl

theorem group_by_two_flattenPairs (ps : List (α × α)) :
    group_by_two (flattenPairs ps) = ps := by
  induction ps with
  | nil => rfl
  | cons p ps ih =>
    obtain ⟨a, b⟩ := p
    simp [flattenPairs, group_by_two_cons_cons, ih]

theorem group_by_two_takeWhile_singleton (p : String → Bool) (t : String) :
    group_by_two ([t].takeWhile p) = [] := by
  by_cases h : p t <;> simp [List.takeWhile, h] <;> rfl

theorem find_first_by_key_nil (k : String) (f : String → α) (d : α) :
    find_first_by_key k [] f d = d := rfl

theorem find_first_by_key_not_mem (k : String) (f : String → α) (d : α) :
    ∀ items : List (String × String), k ∉ items.map Prod.fst →
      find_first_by_key k items f d = d := by
  intro items h
  induction items with
  | nil => rfl
  | cons p rest ih =>
    obtain ⟨k2, v⟩ := p
    simp only [List.map_cons, List.mem_cons, not_or] at h
    simp only [find_first_by_key]
    rw [if_neg fun e => h.1 e.symm]
    exact ih h.2

theorem find_first_by_key_append (k v : String) (f : String → α) (d : α) :
    ∀ pre post : List (String × String), k ∉ pre.map Prod.fst →
      find_first_by_key k (pre ++ (k, v) :: post) f d = f v := by
  intro pre post h
  induction pre with
  | nil => simp [find_first_by_key]
  | cons p rest ih =>
    obtain ⟨k2, v2⟩ := p
    simp only [List.map_cons, List.mem_cons, not_or] at h
    simp only [List.cons_append, find_first_by_key]
    rw [if_neg fun e => h.1 e.symm]
    exact ih h.2

theorem find_first_by_key_default_or_found (k : String) (f : String → α)
    (d : α) : ∀ items : List (String × String),
      find_first_by_key k items f d = d ∨
      ∃ v, find_first_by_key k items f d = f v := by
  intro items
  induction items with
  | nil => exact Or.inl rfl
  | cons p rest ih =>
    obtain ⟨k2, v⟩ := p
    by_cases hk : k2 = k
    · exact Or.inr ⟨v, by simp [find_first_by_key, hk]⟩
    · simpa [find_first_by_key, hk] using ih

theorem find_first_by_key_get (f : String → α) (d : α) :
    ∀ ps : List (String × String), (ps.map Prod.fst).Nodup →
      ∀ i (h : i < ps.length),
        find_first_by_key (ps.get ⟨i, h⟩).1 ps f d = f (ps.get ⟨i, h⟩).2 := by
  intro ps
  induction ps with
  | nil => intro _ i h; exact absurd h (Nat.not_lt_zero i)
  | cons p rest ih =>
    intro hnd i h
    obtain ⟨k, v⟩ := p
    simp only [List.map_cons, List.nodup_cons] at hnd
    cases i with
    | zero => simp [find_first_by_key]
    | succ j =>
      have hj : j < rest.length := Nat.lt_of_succ_lt_succ h
      have hget : ((⟨k, v⟩ :: rest : List (String × String)).get ⟨j + 1, h⟩)
          = rest.get ⟨j, hj⟩ := rfl
      rw [hget]
      have hne : k ≠ (rest.get ⟨j, hj⟩).1 := by
        intro e
        exact hnd.1 (e ▸ List.mem_map_of_mem Prod.fst (rest.get_mem j hj))
      simp only [find_first_by_key]
      rw [if_neg hne]
      exact ih hnd.2 j hj

theorem scanToGroup_eq_none (g : String) :
    ∀ l : List String, g ∉ l → scanToGroup g l = none := by
  intro l h
  induction l with
  | nil => rfl
  | cons t rest ih =>
    simp only [List.mem_cons, not_or] at h
    simp only [scanToGroup]
    rw [if_neg fun e => h.1 e.symm]
    exact ih h.2

theorem scanToGroup_append (g : String) :
    ∀ pre tail : List String, g ∉ pre →
      scanToGroup g (pre ++ g :: tail) = some tail := by
  intro pre tail h
  induction pre with
  | nil => simp [scanToGroup]
  | cons t rest ih =>
    simp only [List.mem_cons, not_or] at h
    simp only [List.cons_append, scanToGroup]
    rw [if_neg fun e => h.1 e.symm]
    exact ih h.2

theorem pySplitCommaAux_length :
    ∀ (cs : List Char) (acc : List Char),
      (pySplitCommaAux acc cs).length = cs.count ',' + 1 := by
  intro cs
  induction cs with
  | nil => intro acc; rfl
  | cons c cs ih =>
    intro acc
    by_cases h : c = ','
    · subst h
      simp [pySplitCommaAux, List.count_cons, ih]
    · simp [pySplitCommaAux, h, List.count_cons, ih]

theorem tokenize_of_length_le (n : Nat) (response : String)
    (h : response.length ≤ n) : tokenize n response = [""] := by
  unfold tokenize pyStringDrop
  rw [List.drop_eq_nil_of_le h]
  rfl

end Sdg

namespace Sdg

/-!  Step lemmas: how each strategy evaluates once the token sequence of
the response is known.  -/

theorem extract_state_short (rpl : Nat) (name : String) (then_ : String → α)
    (d : α) (response : String)
    (h : (tokenize rpl response).length < 2) :
    extract_first_state_field_or_any_group_prefixed_field rpl name then_ d
      response = .ok d := by
  rcases htok : tokenize rpl response with _ | ⟨t, _ | ⟨u, rest⟩⟩
  · unfold extract_first_state_field_or_any_group_prefixed_field
    rw [htok]
  · unfold extract_first_state_field_or_any_group_prefixed_field
    rw [htok]
  · rw [htok] at h
    simp at h
    omega

theorem extract_state_of_cons_cons (rpl : Nat) (name : String)
    (then_ : String → α) (d : α) (response : String) (k v : String)
    (rest : List String) (htok : tokenize rpl response = k :: v :: rest) :
    extract_first_state_field_or_any_group_prefixed_field rpl name then_ d
        response
      = if name = k then Except.ok (then_ v)
        else
          match pySplitComma name with
          | [pg, pn] => lookupAfterGroup pg pn then_ d rest
          | _ => Except.error () := by
  unfold extract_first_state_field_or_any_group_prefixed_field
  rw [htok]

theorem extract_standalone_none_of_cons (rpl : Nat) (then_ : String → α)
    (d : α) (response : String) (t : String) (rest : List String)
    (htok : tokenize rpl response = t :: rest) :
    extract_standalone_first_field_or_regular_field rpl none then_ d response
      = .ok (then_ t) := by
  unfold extract_standalone_first_field_or_regular_field
  rw [htok]

theorem extract_standalone_some_of_cons (rpl : Nat) (nm : String)
    (then_ : String → α) (d : α) (response : String) (t : String)
    (rest : List String) (htok : tokenize rpl response = t :: rest) :
    extract_standalone_first_field_or_regular_field rpl (some nm) then_ d
        response
      = .ok (find_first_by_key nm (group_by_two rest) then_ d) := by
  unfold extract_standalone_first_field_or_regular_field
  rw [htok]

theorem extract_standalone_none_of_nil (rpl : Nat) (then_ : String → α)
    (d : α) (response : String) (htok : tokenize rpl response = []) :
    extract_standalone_first_field_or_regular_field rpl none then_ d response
      = .error () := by
  unfold extract_standalone_first_field_or_regular_field
  rw [htok]

theorem extract_standalone_some_of_nil (rpl : Nat) (nm : String)
    (then_ : String → α) (d : α) (response : String)
    (htok : tokenize rpl response = []) :
    extract_standalone_first_field_or_regular_field rpl (some nm) then_ d
        response = .error () := by
  unfold extract_standalone_first_field_or_regular_field
  rw [htok]

/-!  Further step lemmas for the two branchier strategies.  -/

theorem extract_before_group_simple (grp : String) (rpl : Nat) (name : String)
    (then_ : String → α) (d : α) (response : String)
    (hb : pyStartsWith name (grp ++ ",") = false) :
    extract_regular_field_before_group_or_group_prefixed_field grp rpl name
        then_ d response
      = find_first_by_key name
          (group_by_two
            ((tokenize rpl response).takeWhile (fun t => t != grp)))
          then_ d := by
  unfold extract_regular_field_before_group_or_group_prefixed_field
  rw [hb]
  rfl

theorem extract_before_group_compound (grp : String) (rpl : Nat)
    (name : String) (then_ : String → α) (d : α) (response : String)
    (hb : pyStartsWith name (grp ++ ",") = true) :
    extract_regular_field_before_group_or_group_prefixed_field grp rpl name
      then_ d response = d := by
  unfold extract_regular_field_before_group_or_group_prefixed_field
  rw [hb]
  rfl

theorem extract_state_compound (rpl : Nat) (name : String)
    (then_ : String → α) (d : α) (response : String) (k v : String)
    (rest : List String) (pg pn : String)
    (htok : tokenize rpl response = k :: v :: rest) (hname : name ≠ k)
    (hsp : pySplitComma name = [pg, pn]) :
    extract_first_state_field_or_any_group_prefixed_field rpl name then_ d
      response = lookupAfterGroup pg pn then_ d rest := by
  rw [extract_state_of_cons_cons rpl name then_ d response k v rest htok,
    if_neg hname, hsp]

theorem lookupAfterGroup_no_marker (pg pn : String) (then_ : String → α)
    (d : α) (rest : List String) (hscan : scanToGroup pg rest = none) :
    lookupAfterGroup pg pn then_ d rest = .ok d := by
  unfold lookupAfterGroup
  rw [hscan]

theorem lookupAfterGroup_marker (pg pn : String) (then_ : String → α)
    (d : α) (rest tail : List String)
    (hscan : scanToGroup pg rest = some tail) :
    lookupAfterGroup pg pn then_ d rest
      = .ok (find_first_by_key pn (group_by_two tail) then_ d) := by
  unfold lookupAfterGroup
  rw [hscan]

theorem extract_state_no_marker (rpl : Nat) (name : String)
    (then_ : String → α) (d : α) (response : String) (k v : String)
    (rest : List String) (pg pn : String)
    (htok : tokenize rpl response = k :: v :: rest) (hname : name ≠ k)
    (hsp : pySplitComma name = [pg, pn])
    (hscan : scanToGroup pg rest = none) :
    extract_first_state_field_or_any_group_prefixed_field rpl name then_ d
      response = .ok d := by
  rw [extract_state_compound rpl name then_ d response k v rest pg pn htok
    hname hsp]
  exact lookupAfterGroup_no_marker pg pn then_ d rest hscan

theorem extract_state_marker (rpl : Nat) (name : String) (then_ : String → α)
    (d : α) (response : String) (k v : String) (rest : List String)
    (pg pn : String) (tail : List String)
    (htok : tokenize rpl response = k :: v :: rest) (hname : name ≠ k)
    (hsp : pySplitComma name = [pg, pn])
    (hscan : scanToGroup pg rest = some tail) :
    extract_first_state_field_or_any_group_prefixed_field rpl name then_ d
        response
      = .ok (find_first_by_key pn (group_by_two tail) then_ d) := by
  rw [extract_state_compound rpl name then_ d response k v rest pg pn htok
    hname hsp]
  exact lookupAfterGroup_marker pg pn then_ d rest tail hscan

/-!  Dichotomies: every strategy either returns the untouched default,
returns the transform of a single found raw token, or raises.  -/

theorem extract_regular_default_or_found (rpl : Nat) (name : String)
    (then_ : String → α) (d : α) (response : String) :
    extract_regular_field rpl name then_ d response = d ∨
      ∃ v, extract_regular_field rpl name then_ d response = then_ v :=
  find_first_by_key_default_or_found name then_ d _

theorem extract_before_group_default_or_found (grp : String) (rpl : Nat)
    (name : String) (then_ : String → α) (d : α) (response : String) :
    extract_regular_field_before_group_or_group_prefixed_field grp rpl name
        then_ d response = d ∨
      ∃ v, extract_regular_field_before_group_or_group_prefixed_field grp rpl
        name then_ d response = then_ v := by
  cases hb : pyStartsWith name (grp ++ ",")
  · rw [extract_before_group_simple grp rpl name then_ d response hb]
    exact find_first_by_key_default_or_found name then_ d _
  · rw [extract_before_group_compound grp rpl name then_ d response hb]
    exact Or.inl rfl

theorem extract_state_default_or_found_or_error (rpl : Nat) (name : String)
    (then_ : String → α) (d : α) (response : String) :
    extract_first_state_field_or_any_group_prefixed_field rpl name then_ d
        response = .ok d ∨
      (∃ v, extract_first_state_field_or_any_group_prefixed_field rpl name
        then_ d response = .ok (then_ v)) ∨
      extract_first_state_field_or_any_group_prefixed_field rpl name then_ d
        response = .error () := by
  rcases htok : tokenize rpl response with _ | ⟨k, _ | ⟨v, rest⟩⟩
  · refine Or.inl (extract_state_short rpl name then_ d response ?_)
    rw [htok]
    decide
  · refine Or.inl (extract_state_short rpl name then_ d response ?_)
    rw [htok]
    simp
  · by_cases hname : name = k
    · refine Or.inr (Or.inl ⟨v, ?_⟩)
      rw [extract_state_of_cons_cons rpl name then_ d response k v rest htok,
        if_pos hname]
    · rcases hsp : pySplitComma name with _ | ⟨pg, _ | ⟨pn, _ | ⟨x, xs⟩⟩⟩
      · refine Or.inr (Or.inr ?_)
        rw [extract_state_of_cons_cons rpl name then_ d response k v rest htok,
          if_neg hname, hsp]
      · refine Or.inr (Or.inr ?_)
        rw [extract_state_of_cons_cons rpl name then_ d response k v rest htok,
          if_neg hname, hsp]
      · rcases hscan : scanToGroup pg rest with _ | tail
        · exact Or.inl (extract_state_no_marker rpl name then_ d response
            k v rest pg pn htok hname hsp hscan)
        · rw [extract_state_marker rpl name then_ d response k v rest pg pn
            tail htok hname hsp hscan]
          rcases find_first_by_key_default_or_found pn then_ d
            (group_by_two tail) with hd | ⟨v2, hv2⟩
          · rw [hd]
            exact Or.inl rfl
          · rw [hv2]
            exact Or.inr (Or.inl ⟨v2, rfl⟩)
      · refine Or.inr (Or.inr ?_)
        rw [extract_state_of_cons_cons rpl name then_ d response k v rest htok,
          if_neg hname, hsp]

theorem extract_standalone_default_or_found_or_error (rpl : Nat)
    (nm : Option String) (then_ : String → α) (d : α) (response : String) :
    extract_standalone_first_field_or_regular_field rpl nm then_ d response
        = .ok d ∨
      (∃ v, extract_standalone_first_field_or_regular_field rpl nm then_ d
        response = .ok (then_ v)) ∨
      extract_standalone_first_field_or_regular_field rpl nm then_ d response
        = .error () := by
  cases nm with
  | none =>
    rcases htok : tokenize rpl response with _ | ⟨t, rest⟩
    · exact Or.inr (Or.inr
        (extract_standalone_none_of_nil rpl then_ d response htok))
    · exact Or.inr (Or.inl
        ⟨t, extract_standalone_none_of_cons rpl then_ d response t rest htok⟩)
  | some nm =>
    rcases htok : tokenize rpl response with _ | ⟨t, rest⟩
    · exact Or.inr (Or.inr
        (extract_standalone_some_of_nil rpl nm then_ d response htok))
    · rw [extract_standalone_some_of_cons rpl nm then_ d response t rest htok]
      rcases find_first_by_key_default_or_found nm then_ d
        (group_by_two rest) with hd | ⟨v2, hv2⟩
      · rw [hd]
        exact Or.inl rfl
      · rw [hv2]
        exact Or.inr (Or.inl ⟨v2, rfl⟩)

end Sdg

namespace Sdg

/-- C2: for the flat-pairs strategy, on any response whose token sequence
after the prefix is the flattening of pairs `(K1,V1) ... (Kn,Vn)` with
pairwise-distinct keys, the extractor built for `Ki` returns
`then_ Vi` for every `i`, and the extractor built for any key not among
`K1..Kn` returns the configured default. -/
theorem c2_flat_pairs_lookup (rpl : Nat) (response : String)
    (ps : List (String × String)) (then_ : String → α) (d : α)
    (htok : tokenize rpl response = flattenPairs ps)
    (hnd : (ps.map Prod.fst).Nodup) :
    (∀ i (h : i < ps.length),
       extract_regular_field rpl (ps.get ⟨i, h⟩).1 then_ d response
         = then_ (ps.get ⟨i, h⟩).2) ∧
    (∀ k, k ∉ ps.map Prod.fst →
       extract_regular_field rpl k then_ d response = d) := by
  constructor
  · intro i h
    unfold extract_regular_field
    rw [htok, group_by_two_flattenPairs]
    exact find_first_by_key_get then_ d ps hnd i h
  · intro k hk
    unfold extract_regular_field
    rw [htok, group_by_two_flattenPairs]
    exact find_first_by_key_not_mem k then_ d ps hk

/-- Witness for C2 on the concrete response `"PFX:K1,V1,K2,V2"`. -/
theorem c2_flat_pairs_lookup_witness :
    extract_regular_field 4 "K2" some (none : Option String)
        "PFX:K1,V1,K2,V2" = some "V2" ∧
    extract_regular_field 4 "ZZ" some (none : Option String)
        "PFX:K1,V1,K2,V2" = none := by
  have h := c2_flat_pairs_lookup 4 "PFX:K1,V1,K2,V2"
    [("K1", "V1"), ("K2", "V2")] some (none : Option String)
    (by decide) (by decide)
  exact ⟨h.1 1 (by decide), h.2 "ZZ" (by decide)⟩

/-- C3: first-match-wins — if a key occurs several times in a pair run,
lookup returns the transformed value of the first occurrence, whatever
pairs follow; concretely, extracting `K` from a response tokenizing to
`K,V1,K,V2` with the flat-pairs strategy returns `then_ V1`. -/
theorem c3_first_match_wins (k v v1 v2 : String)
    (pre post : List (String × String)) (then_ : String → α) (d : α)
    (rpl : Nat) (response : String) :
    (k ∉ pre.map Prod.fst →
       find_first_by_key k (pre ++ (k, v) :: post) then_ d = then_ v) ∧
    (tokenize rpl response = [k, v1, k, v2] →
       extract_regular_field rpl k then_ d response = then_ v1) := by
  constructor
  · exact fun h => find_first_by_key_append k v then_ d pre post h
  · intro htok
    unfold extract_regular_field
    rw [htok]
    show find_first_by_key k [(k, v1), (k, v2)] then_ d = then_ v1
    simp [find_first_by_key]

/-- Witness for C3: duplicate key `K` in `"K,V1,K,V2"` resolves to `V1`,
and the list-level statement at a concrete prefix run. -/
theorem c3_first_match_wins_witness :
    find_first_by_key "K" ([("A", "0")] ++ ("K", "V") :: [("K", "W")]) some
        (none : Option String) = some "V" ∧
    extract_regular_field 0 "K" some (none : Option String) "K,V1,K,V2"
      = some "V1" := by
  have h := c3_first_match_wins "K" "V" "V1" "V2" [("A", "0")] [("K", "W")]
    some (none : Option String) 0 "K,V1,K,V2"
  exact ⟨h.1 (by decide), h.2 (by decide)⟩

/-- C4: the pairing primitive yields only complete pairs — on a token
sequence of odd length `2n+1` it produces exactly `n` pairs whose
flattening is the first `2n` tokens (the dangling last token is
dropped, never paired with a synthetic value); hence looking up the
dangling key `K2` in `"K1,V1,K2"` returns the default. -/
theorem c4_pairing_drops_dangling (n : Nat) (l : List γ)
    (then_ : String → α) (d : α) :
    (l.length = 2 * n + 1 →
       group_by_two l = group_by_two (l.take (2 * n)) ∧
       (group_by_two l).length = n ∧
       flattenPairs (group_by_two l) = l.take (2 * n)) ∧
    extract_regular_field 0 "K2" then_ d "K1,V1,K2" = d := by
  constructor
  · intro hlen
    induction n generalizing l with
    | zero =>
      cases l with
      | nil =>
        simp only [List.length_nil] at hlen
        exact absurd hlen (by omega)
      | cons a l2 =>
        cases l2 with
        | nil => exact ⟨rfl, rfl, rfl⟩
        | cons b l3 =>
          simp only [List.length_cons] at hlen
          exact absurd hlen (by omega)
    | succ m ih =>
      cases l with
      | nil =>
        simp only [List.length_nil] at hlen
        exact absurd hlen (by omega)
      | cons a l2 =>
        cases l2 with
        | nil =>
          simp only [List.length_cons, List.length_nil] at hlen
          exact absurd hlen (by omega)
        | cons b l3 =>
          have hl3 : l3.length = 2 * m + 1 := by
            simp only [List.length_cons] at hlen
            omega
          obtain ⟨ih1, ih2, ih3⟩ := ih l3 hl3
          have h2 : 2 * (m + 1) = 2 * m + 1 + 1 := by ring
          refine ⟨?_, ?_, ?_⟩
          · rw [group_by_two_cons_cons, h2, List.take_succ_cons,
              List.take_succ_cons, group_by_two_cons_cons, ih1]
          · rw [group_by_two_cons_cons]
            simp [ih2]
          · rw [group_by_two_cons_cons, h2, List.take_succ_cons,
              List.take_succ_cons]
            show a :: b :: flattenPairs (group_by_two l3) = _
            rw [ih3]
  · unfold extract_regular_field
    rw [(by decide : tokenize 0 "K1,V1,K2" = ["K1", "V1", "K2"])]
    show find_first_by_key "K2" [("K1", "V1")] then_ d = d
    simp only [find_first_by_key]
    rw [if_neg (by decide)]

/-- Witness for C4 at the odd-length token list `["K1", "V1", "K2"]`. -/
theorem c4_pairing_drops_dangling_witness :
    group_by_two ["K1", "V1", "K2"]
        = group_by_two (["K1", "V1", "K2"].take (2 * 1)) ∧
    (group_by_two ["K1", "V1", "K2"]).length = 1 ∧
    flattenPairs (group_by_two ["K1", "V1", "K2"])
      = ["K1", "V1", "K2"].take (2 * 1) :=
  (c4_pairing_drops_dangling 1 ["K1", "V1", "K2"] some
    (none : Option String)).1 (by decide)

end Sdg

namespace Sdg

/-- C5: state-or-group strategy — fewer than two tokens returns the
default immediately; with at least two tokens, a field path equal to the
first token returns the transformed second token; a compound field path
`g,p` scans the remaining tokens one at a time until a bare token equals
`g` (default if exhausted) and then looks `p` up in the pair run formed
from all tokens after the marker (default if absent). -/
theorem c5_state_or_group (rpl : Nat) (name : String) (then_ : String → α)
    (d : α) (response : String) :
    ((tokenize rpl response).length < 2 →
       extract_first_state_field_or_any_group_prefixed_field rpl name then_ d
         response = .ok d) ∧
    (∀ k v rest, tokenize rpl response = k :: v :: rest →
       (name = k →
          extract_first_state_field_or_any_group_prefixed_field rpl name
            then_ d response = .ok (then_ v)) ∧
       (∀ g p, name ≠ k → pySplitComma name = [g, p] →
          (g ∉ rest →
             extract_first_state_field_or_any_group_prefixed_field rpl name
               then_ d response = .ok d) ∧
          (∀ pre tail, rest = pre ++ g :: tail → g ∉ pre →
             extract_first_state_field_or_any_group_prefixed_field rpl name
                 then_ d response
               = .ok (find_first_by_key p (group_by_two tail) then_ d) ∧
             (p ∉ (group_by_two tail).map Prod.fst →
                extract_first_state_field_or_any_group_prefixed_field rpl
                  name then_ d response = .ok d)))) := by
  refine ⟨extract_state_short rpl name then_ d response, ?_⟩
  intro k v rest htok
  constructor
  · intro hname
    rw [extract_state_of_cons_cons rpl name then_ d response k v rest htok,
      if_pos hname]
  · intro g p hname hsp
    constructor
    · intro hg
      exact extract_state_no_marker rpl name then_ d response k v rest g p
        htok hname hsp (scanToGroup_eq_none g rest hg)
    · intro pre tail hdecomp hgpre
      have hscan : scanToGroup g rest = some tail := by
        rw [hdecomp]
        exact scanToGroup_append g pre tail hgpre
      constructor
      · exact extract_state_marker rpl name then_ d response k v rest g p
          tail htok hname hsp hscan
      · intro hp
        rw [extract_state_marker rpl name then_ d response k v rest g p tail
          htok hname hsp hscan,
          find_first_by_key_not_mem p then_ d (group_by_two tail) hp]

/-- Witness for C5 on `"ST,ON,AM,FRQ,100,DEPTH,50"`: a too-short response
defaults, the state key is answered from the leading pair, a compound
path is answered from the tokens after its group marker, and a missing
marker defaults. -/
theorem c5_state_or_group_witness :
    extract_first_state_field_or_any_group_prefixed_field 0 "AM,FRQ" some
        (none : Option String) "X" = .ok none ∧
    extract_first_state_field_or_any_group_prefixed_field 0 "ST" some
        (none : Option String) "ST,ON,AM,FRQ,100,DEPTH,50"
      = .ok (some "ON") ∧
    extract_first_state_field_or_any_group_prefixed_field 0 "AM,FRQ" some
        (none : Option String) "ST,ON,AM,FRQ,100,DEPTH,50"
      = .ok (some "100") ∧
    extract_first_state_field_or_any_group_prefixed_field 0 "XX,FRQ" some
        (none : Option String) "ST,ON,AM,FRQ,100,DEPTH,50" = .ok none := by
  refine ⟨?_, ?_, ?_, ?_⟩
  · exact (c5_state_or_group 0 "AM,FRQ" some (none : Option String) "X").1
      (by decide)
  · exact ((c5_state_or_group 0 "ST" some (none : Option String)
      "ST,ON,AM,FRQ,100,DEPTH,50").2 "ST" "ON"
      ["AM", "FRQ", "100", "DEPTH", "50"] (by decide)).1 rfl
  · exact ((((c5_state_or_group 0 "AM,FRQ" some (none : Option String)
      "ST,ON,AM,FRQ,100,DEPTH,50").2 "ST" "ON"
      ["AM", "FRQ", "100", "DEPTH", "50"] (by decide)).2 "AM" "FRQ"
      (by decide) (by decide)).2 [] ["FRQ", "100", "DEPTH", "50"]
      rfl (by decide)).1
  · exact (((c5_state_or_group 0 "XX,FRQ" some (none : Option String)
      "ST,ON,AM,FRQ,100,DEPTH,50").2 "ST" "ON"
      ["AM", "FRQ", "100", "DEPTH", "50"] (by decide)).2 "XX" "FRQ"
      (by decide) (by decide)).1 (by decide)

/-- C6: scalar-or-pairs strategy — with no field requested the extractor
returns the transformed first token after the prefix (raising only on an
empty token sequence); with a field requested it discards the first
token entirely and answers by first-match lookup over the pair run of
the remaining tokens, default on miss. -/
theorem c6_scalar_or_pairs (rpl : Nat) (then_ : String → α) (d : α)
    (response : String) :
    (tokenize rpl response = [] →
       extract_standalone_first_field_or_regular_field rpl none then_ d
           response = .error () ∧
       ∀ k, extract_standalone_first_field_or_regular_field rpl (some k)
           then_ d response = .error ()) ∧
    (∀ t rest, tokenize rpl response = t :: rest →
       extract_standalone_first_field_or_regular_field rpl none then_ d
           response = .ok (then_ t) ∧
       ∀ k,
         (k ∉ (group_by_two rest).map Prod.fst →
            extract_standalone_first_field_or_regular_field rpl (some k)
              then_ d response = .ok d) ∧
         (∀ pre v post, group_by_two rest = pre ++ (k, v) :: post →
            k ∉ pre.map Prod.fst →
            extract_standalone_first_field_or_regular_field rpl (some k)
              then_ d response = .ok (then_ v))) := by
  constructor
  · intro htok
    exact ⟨extract_standalone_none_of_nil rpl then_ d response htok,
      fun k => extract_standalone_some_of_nil rpl k then_ d response htok⟩
  · intro t rest htok
    refine ⟨extract_standalone_none_of_cons rpl then_ d response t rest htok,
      fun k => ⟨?_, ?_⟩⟩
    · intro hk
      rw [extract_standalone_some_of_cons rpl k then_ d response t rest htok,
        find_first_by_key_not_mem k then_ d (group_by_two rest) hk]
    · intro pre v post hdec hkpre
      rw [extract_standalone_some_of_cons rpl k then_ d response t rest htok,
        hdec, find_first_by_key_append k v then_ d pre post hkpre]

/-- Witness for C6 on `"V0,K,V"`: no-field returns the first token;
requesting `"V0"` misses even though it equals the discarded first
token; requesting `"K"` finds `"V"`. -/
theorem c6_scalar_or_pairs_witness :
    extract_standalone_first_field_or_regular_field 0 none some
        (none : Option String) "V0,K,V" = .ok (some "V0") ∧
    extract_standalone_first_field_or_regular_field 0 (some "V0") some
        (none : Option String) "V0,K,V" = .ok none ∧
    extract_standalone_first_field_or_regular_field 0 (some "K") some
        (none : Option String) "V0,K,V" = .ok (some "V") := by
  have h := (c6_scalar_or_pairs 0 some (none : Option String) "V0,K,V").2
    "V0" ["K", "V"] (by decide)
  exact ⟨h.1, (h.2 "V0").1 (by decide),
    (h.2 "K").2 [] "V" [] (by decide) (by decide)⟩

/-- C7: the transform is applied only on the success path — a lookup
miss returns the configured default verbatim, and every strategy either
returns that default, the transform of one found raw token, or (for the
two strategies that can raise) an error; the default value is never fed
through the transform. -/
theorem c7_default_untransformed (k grpM name : String) (rpl : Nat)
    (then_ : String → α) (d : α) (items : List (String × String))
    (response : String) (nm : Option String) :
    (k ∉ items.map Prod.fst → find_first_by_key k items then_ d = d) ∧
    (extract_regular_field rpl name then_ d response = d ∨
       ∃ v, extract_regular_field rpl name then_ d response = then_ v) ∧
    (extract_regular_field_before_group_or_group_prefixed_field grpM rpl name
         then_ d response = d ∨
       ∃ v, extract_regular_field_before_group_or_group_prefixed_field grpM
         rpl name then_ d response = then_ v) ∧
    (extract_first_state_field_or_any_group_prefixed_field rpl name then_ d
         response = .ok d ∨
       (∃ v, extract_first_state_field_or_any_group_prefixed_field rpl name
         then_ d response = .ok (then_ v)) ∨
       extract_first_state_field_or_any_group_prefixed_field rpl name then_ d
         response = .error ()) ∧
    (extract_standalone_first_field_or_regular_field rpl nm then_ d response
         = .ok d ∨
       (∃ v, extract_standalone_first_field_or_regular_field rpl nm then_ d
         response = .ok (then_ v)) ∨
       extract_standalone_first_field_or_regular_field rpl nm then_ d
         response = .error ()) :=
  ⟨find_first_by_key_not_mem k then_ d items,
   extract_regular_default_or_found rpl name then_ d response,
   extract_before_group_default_or_found grpM rpl name then_ d response,
   extract_state_default_or_found_or_error rpl name then_ d response,
   extract_standalone_default_or_found_or_error rpl nm then_ d response⟩

/-- Witness for C7: a missing key resolves to the untouched default. -/
theorem c7_default_untransformed_witness :
    find_first_by_key "Z" [("A", "1")] some (none : Option String) = none :=
  (c7_default_untransformed "Z" "G" "N" 0 some (none : Option String)
    [("A", "1")] "A,1" none).1 (by decide)

end Sdg

namespace Sdg

/-- C1: the prefix-then-group strategy evaluated on the spec's own
example — the compound field path `"CARR,B"` on response
`"A,1,CARR,B,2"` (prefix length 0, marker `"CARR"`) returns the
default, not the transformed value `"2"`.  The stray trailing comma in
`items = (iter(response[...].split(",")),)` makes the group-scan loop
compare the iterator object itself (never a token) with the marker, so
the marker is never found and the compound branch always falls through
to the default. -/
theorem c1_group_prefixed_field_returns_default :
    extract_regular_field_before_group_or_group_prefixed_field "CARR" 0
        "CARR,B" some (none : Option String) "A,1,CARR,B,2" = none ∧
    extract_regular_field_before_group_or_group_prefixed_field "CARR" 0
      "CARR,B" some (none : Option String) "A,1,CARR,B,2" ≠ some "2" :=
  ⟨by decide, by decide⟩

/-- C8: unit stripping — when the token ends with the literal suffix,
`pyRemoveSuffix` removes exactly that suffix (appending the suffix back
restores the token); when it does not, the token passes through
unchanged; composed with any parse `then_`, stripping `"HZ"` maps both
`"1000HZ"` and `"1000"` to `then_ "1000"` (so the float parse yields
`1000.0` in both cases), for the library `strip_unit` and for the local
`strip_unit` in `sdg.py` alike. -/
theorem c8_strip_unit_behavior (then_ : String → α) (s u : String) :
    (pyEndsWith s u = true →
       (pyRemoveSuffix s u).data ++ u.data = s.data) ∧
    (pyEndsWith s u = false → pyRemoveSuffix s u = s) ∧
    (strip_unit "HZ" then_ "1000HZ" = then_ "1000" ∧
     strip_unit "HZ" then_ "1000" = then_ "1000") ∧
    (strip_unit_sdg "HZ" then_ "1000HZ" = then_ "1000" ∧
     strip_unit_sdg "HZ" then_ "1000" = then_ "1000") := by
  refine ⟨?_, ?_, ⟨?_, ?_⟩, ⟨?_, ?_⟩⟩
  · intro h
    by_cases hu : u.data = []
    · unfold pyRemoveSuffix
      rw [hu]
      simp
    · have hdrop : s.data.drop (s.data.length - u.data.length) = u.data := by
        unfold pyEndsWith at h
        rw [Bool.and_eq_true] at h
        simpa using h.2
      have hcond : (!u.data.isEmpty && pyEndsWith s u) = true := by
        rw [h]
        cases hud : u.data with
        | nil => exact absurd hud hu
        | cons c cs => rfl
      unfold pyRemoveSuffix
      rw [if_pos hcond]
      show s.data.take (s.data.length - u.data.length) ++ u.data = s.data
      calc
        s.data.take (s.data.length - u.data.length) ++ u.data
            = s.data.take (s.data.length - u.data.length)
                ++ s.data.drop (s.data.length - u.data.length) := by
              rw [hdrop]
        _ = s.data := List.take_append_drop _ s.data
  · intro h
    unfold pyRemoveSuffix
    rw [h]
    simp
  · show then_ (pyRemoveSuffix "1000HZ" "HZ") = then_ "1000"
    exact congrArg then_ (by decide)
  · show then_ (pyRemoveSuffix "1000" "HZ") = then_ "1000"
    exact congrArg then_ (by decide)
  · have hc : pyEndsWith "1000HZ" "HZ" = true := by decide
    unfold strip_unit_sdg
    rw [hc, if_pos rfl]
    exact congrArg then_ (by decide)
  · have hc : pyEndsWith "1000" "HZ" = false := by decide
    unfold strip_unit_sdg
    rw [hc, if_neg (by decide : ¬(false = true))]

/-- Witness for C8 at `s = "1000HZ"` and `s = "1000"`, `u = "HZ"`. -/
theorem c8_strip_unit_behavior_witness :
    (pyRemoveSuffix "1000HZ" "HZ").data ++ ("HZ" : String).data
        = ("1000HZ" : String).data ∧
    pyRemoveSuffix "1000" "HZ" = "1000" := by
  constructor
  · exact (c8_strip_unit_behavior (Option.some : String → Option String)
      "1000HZ" "HZ").1 (by decide)
  · exact (c8_strip_unit_behavior (Option.some : String → Option String)
      "1000" "HZ").2.1 (by decide)

/-- C9: a response shorter than the prefix tokenizes to the single empty
remainder, and every lookup-based extractor (flat pairs, prefix then
group, state or group, and the field-requested branch of
scalar-or-pairs) resolves it to the configured default without
raising. -/
theorem c9_short_input_default (rpl : Nat) (grpM name : String)
    (then_ : String → α) (d : α) (response : String)
    (h : response.length ≤ rpl) :
    extract_regular_field rpl name then_ d response = d ∧
    extract_regular_field_before_group_or_group_prefixed_field grpM rpl name
      then_ d response = d ∧
    extract_first_state_field_or_any_group_prefixed_field rpl name then_ d
      response = .ok d ∧
    extract_standalone_first_field_or_regular_field rpl (some name) then_ d
      response = .ok d := by
  have htok : tokenize rpl response = [""] :=
    tokenize_of_length_le rpl response h
  refine ⟨?_, ?_, ?_, ?_⟩
  · unfold extract_regular_field
    rw [htok]
    rfl
  · cases hb : pyStartsWith name (grpM ++ ",")
    · rw [extract_before_group_simple grpM rpl name then_ d response hb, htok,
        group_by_two_takeWhile_singleton]
      rfl
    · exact extract_before_group_compound grpM rpl name then_ d response hb
  · apply extract_state_short
    rw [htok]
    decide
  · rw [extract_standalone_some_of_cons rpl name then_ d response "" [] htok]
    rfl

/-- Witness for C9: prefix length 9 exceeds the length of `"short"`. -/
theorem c9_short_input_default_witness :
    extract_regular_field 9 "K" some (none : Option String) "short" = none ∧
    extract_regular_field_before_group_or_group_prefixed_field "G" 9 "K" some
      (none : Option String) "short" = none ∧
    extract_first_state_field_or_any_group_prefixed_field 9 "K" some
      (none : Option String) "short" = .ok none ∧
    extract_standalone_first_field_or_regular_field 9 (some "K") some
      (none : Option String) "short" = .ok none :=
  c9_short_input_default 9 "G" "K" some (none : Option String) "short"
    (by decide)

/-- C10: the compound-field-path shape is not validated up front — if
the configured field path has no comma or more than one comma (so its
split does not have exactly two parts) and does not equal the first
token, applying the state-or-group extractor to any response with at
least two tokens raises `ValueError` (modelled `.error ()`) instead of
returning the default. -/
theorem c10_compound_path_valueerror (rpl : Nat) (name : String)
    (then_ : String → α) (d : α) (response : String) (k v : String)
    (rest : List String)
    (htok : tokenize rpl response = k :: v :: rest)
    (hne : name ≠ k)
    (hcomma : name.data.count ',' ≠ 1) :
    extract_first_state_field_or_any_group_prefixed_field rpl name then_ d
      response = .error () := by
  have hlen : (pySplitComma name).length ≠ 2 := by
    unfold pySplitComma
    rw [pySplitCommaAux_length]
    omega
  rw [extract_state_of_cons_cons rpl name then_ d response k v rest htok,
    if_neg hne]
  rcases hs : pySplitComma name with _ | ⟨a, _ | ⟨b, _ | ⟨e, xs⟩⟩⟩
  · rfl
  · rfl
  · exact absurd (by simp [hs]) hlen
  · rfl

/-- Witness for C10: field path `"NOCOMMA"` against response `"A,B"`. -/
theorem c10_compound_path_valueerror_witness :
    extract_first_state_field_or_any_group_prefixed_field 0 "NOCOMMA" some
      (none : Option String) "A,B" = .error () :=
  c10_compound_path_valueerror 0 "NOCOMMA" some (none : Option String) "A,B"
    "A" "B" [] (by decide) (by decide) (by decide)

end Sdg
